import Mathlib

/-!
# trc20-sender: the transfer pipeline of `main.go`

A shallow embedding of `sendTRC20USDT` and the functions it calls
(`createTRC20Transaction`, `signTransaction`, `broadcastTransaction`,
`hexToTronAddress`, `tronAddressToHex`).

* Go strings are lists of characters; string constants are written
  `"...".toList`.
* A Go call either returns or panics; a returning call of type
  `(T, error)` yields a value and an optional error text.
* The remote node (HTTP transport plus JSON decoding) and the cryptographic
  primitives are parameters: `Node` and `Lib`.
* The standard-library pieces that decide the encoded bytes are embedded
  from their Go definitions: `strings.TrimPrefix`, the `%064s` verb of
  `fmt.Sprintf`, `hex.DecodeString`, `big.Float` parsing / multiplication /
  truncation at the default 64-bit precision, and `big.Int.Text`.
* Go counts characters in the width of `%064s` (`List.length`) and bytes in
  `len` and in slices (`len`, `sliceTo`); the two agree on ASCII text, which
  is what hexadecimal keys, addresses and amounts are.
* Exponents are unbounded integers where Go uses `int64`; they are compared
  with the `int32` range of `big.Float` before use, so the two differ only on
  inputs of about `2 ^ 63` characters.
-/

namespace Trc20

/-! ## Go strings -/

/-- A Go string, as its sequence of characters. -/
abbrev GoString := List Char

/-- Go `strings.TrimPrefix(s, p)`: `s` without the leading `p`, or `s` itself
when `s` does not start with `p`. -/
def TrimPrefix (s p : GoString) : GoString :=
  if p.isPrefixOf s then s.drop p.length else s

/-- Go `fmt.Sprintf("%064s", s)`: `s` left-padded with the character `0` up to
a width of 64 characters. The width is a minimum: a longer `s` is not cut. -/
def sprintf064s (s : GoString) : GoString :=
  List.replicate (64 - s.length) '0' ++ s

/-- Go `len(s)`: the number of bytes of the UTF-8 text of `s`. -/
def len : GoString → Nat
  | [] => 0
  | c :: s => c.utf8Size + len s

/-- Go `s[:n]` for `n ≤ len(s)`: the characters of `s` that lie whole within
its first `n` bytes, which on ASCII text are its first `n` characters. (When
byte `n` falls inside a character, Go keeps the leading bytes of that
character as well.) -/
def sliceTo : Nat → GoString → GoString
  | _, [] => []
  | n, c :: s => if c.utf8Size ≤ n then c :: sliceTo (n - c.utf8Size) s else []

/-- The digit alphabet of `big.Int.Text` for bases up to 36. -/
def digitChar (d : Nat) : Char :=
  if d < 10 then Char.ofNat (48 + d) else Char.ofNat (87 + d)

/-- Most significant digit first conversion with an explicit step budget;
`fuel` steps are enough for every `n < base ^ fuel`. -/
def itoaAux (base : Nat) : Nat → Nat → GoString → GoString
  | 0, _, acc => acc
  | fuel + 1, n, acc =>
    if n < base then digitChar n :: acc
    else itoaAux base fuel (n / base) (digitChar (n % base) :: acc)

/-- The text of a natural number in base 16, lower case, without leading
zeros (`0` for zero). -/
def natText16 (n : Nat) : GoString :=
  itoaAux 16 (n + 1) n []

/-- The value of one hexadecimal character, if it is one
(`encoding/hex` accepts both cases). -/
def fromHexChar (c : Char) : Option Nat :=
  if '0' ≤ c ∧ c ≤ '9' then some (c.toNat - 48)
  else if 'a' ≤ c ∧ c ≤ 'f' then some (c.toNat - 87)
  else if 'A' ≤ c ∧ c ≤ 'F' then some (c.toNat - 55)
  else none

/-- One step of reading a hexadecimal number: the digit `c` appended to the
number read so far. -/
def hexStep (acc : Option Nat) (c : Char) : Option Nat :=
  acc.bind (fun a => (fromHexChar c).map (fun d => 16 * a + d))

/-- The number written by a string of hexadecimal digits, most significant
first; `none` when a character is not a hexadecimal digit. -/
def hexValue (s : GoString) : Option Nat :=
  s.foldl hexStep (some 0)

/-! ## math/big -/

/-- The three forms of a `big.Float`. -/
inductive Form
  | zero
  | finite
  | inf
  deriving DecidableEq, Repr

/-- A `big.Float`: precision in bits, sign, form, and for a finite value the
magnitude `mant * 2 ^ scale` with `mant > 0`. -/
structure Float where
  prec : Nat
  neg : Bool
  form : Form
  mant : Nat
  scale : Int
  deriving Repr

/-- Bit counting with an explicit step budget; `fuel` steps are enough for
every `n < 2 ^ fuel`. -/
def bitLenAux : Nat → Nat → Nat
  | 0, _ => 0
  | fuel + 1, n => if n = 0 then 0 else bitLenAux fuel (n / 2) + 1

/-- Number of bits of a natural number (`0` for zero). -/
def bitLen (n : Nat) : Nat :=
  bitLenAux n n

/-- Largest exponent of a `big.Float` (`big.MaxExp`). -/
def MaxExp : Int := 2147483647

/-- Smallest exponent of a `big.Float` (`big.MinExp`). -/
def MinExp : Int := -2147483648

/-- The exponent Go stores for a finite value: the value lies in
`[2 ^ (exp - 1), 2 ^ exp)`. -/
def Float.exp (x : Float) : Int :=
  x.scale + bitLen x.mant

/-- The value `new(big.Float)`. -/
def Float.new : Float :=
  { prec := 0, neg := false, form := Form.zero, mant := 0, scale := 0 }

/-- The exponent `e` with `2 ^ (e - 1) ≤ n / d < 2 ^ e`, for `n, d > 0`. -/
def quoExp (n d : Nat) : Int :=
  let k : Int := (bitLen n : Int) - (bitLen d : Int)
  if n * 2 ^ (-k).toNat < d * 2 ^ k.toNat then k else k + 1

/-- The correctly rounded (to nearest, ties to even) `prec`-bit result of
`(n / d) * 2 ^ sc` for `n, d > 0`, as `big.Float` arithmetic produces it
(`setExpAndRound` followed by `round`): an exponent below `MinExp` gives
zero, one above `MaxExp` gives infinity. -/
def roundQuo (prec : Nat) (neg : Bool) (n d : Nat) (sc : Int) : Float :=
  let e := quoExp n d
  if e + sc < MinExp then { prec := prec, neg := neg, form := Form.zero, mant := 0, scale := 0 }
  else if e + sc > MaxExp then { prec := prec, neg := neg, form := Form.inf, mant := 0, scale := 0 }
  else
    let s : Int := (prec : Int) - e
    let num := n * 2 ^ s.toNat
    let den := d * 2 ^ (-s).toNat
    let q := num / den
    let r := num % den
    let q1 := if den < 2 * r ∨ (2 * r = den ∧ q % 2 = 1) then q + 1 else q
    if q1 = 2 ^ prec ∧ e + sc ≥ MaxExp then
      { prec := prec, neg := neg, form := Form.inf, mant := 0, scale := 0 }
    else
      { prec := prec, neg := neg, form := Form.finite, mant := q1, scale := sc - s }

/-- The value left in `z` by `z.Mul(x, y)` when `z` has precision `prec`. -/
def mulPrec (prec : Nat) (x y : Float) : Float :=
  let neg := x.neg != y.neg
  match x.form, y.form with
  | Form.finite, Form.finite => roundQuo prec neg (x.mant * y.mant) 1 (x.scale + y.scale)
  | Form.zero, Form.inf => { prec := prec, neg := false, form := Form.zero, mant := 0, scale := 0 }
  | Form.inf, Form.zero => { prec := prec, neg := false, form := Form.zero, mant := 0, scale := 0 }
  | Form.inf, _ => { prec := prec, neg := neg, form := Form.inf, mant := 0, scale := 0 }
  | _, Form.inf => { prec := prec, neg := neg, form := Form.inf, mant := 0, scale := 0 }
  | _, _ => { prec := prec, neg := neg, form := Form.zero, mant := 0, scale := 0 }

/-- Whether `Mul(x, y)` panics with `ErrNaN` (zero times infinity). -/
def mulPanics (x y : Float) : Bool :=
  (x.form == Form.zero && y.form == Form.inf) || (x.form == Form.inf && y.form == Form.zero)

/-- The value left in `z` by `z.Quo(x, y)` when `z` has precision `prec`. -/
def quoPrec (prec : Nat) (x y : Float) : Float :=
  let neg := x.neg != y.neg
  match x.form, y.form with
  | Form.finite, Form.finite => roundQuo prec neg x.mant y.mant (x.scale - y.scale)
  | Form.zero, Form.zero => { prec := prec, neg := false, form := Form.zero, mant := 0, scale := 0 }
  | Form.inf, Form.inf => { prec := prec, neg := false, form := Form.zero, mant := 0, scale := 0 }
  | Form.zero, _ => { prec := prec, neg := neg, form := Form.zero, mant := 0, scale := 0 }
  | _, Form.inf => { prec := prec, neg := neg, form := Form.zero, mant := 0, scale := 0 }
  | _, _ => { prec := prec, neg := neg, form := Form.inf, mant := 0, scale := 0 }

/-- A receiver `new(big.Float).Mul(x, y)`: precision 0 becomes the larger of
the operands' precisions. -/
def Float.Mul (x y : Float) : Float :=
  mulPrec (max x.prec y.prec) x y

/-- The value `new(big.Float).SetFloat64(1000000)`: precision 53. -/
def multiplier : Float :=
  { prec := 53, neg := false, form := Form.finite, mant := 1000000, scale := 0 }

/-- The loop of `(*Float).pow5`: square-and-multiply, `z` and `f` each at its
own precision; 64 rounds serve every `uint64`. -/
def pow5Loop : Nat → Nat → Float → Float → Float
  | 0, _, z, _ => z
  | fuel + 1, n, z, f =>
    if n = 0 then z
    else pow5Loop fuel (n / 2) (if n % 2 = 1 then mulPrec z.prec z f else z) (mulPrec f.prec f f)

/-- Go `(*Float).pow5` on a receiver of precision `prec`: `5 ^ n`, exact up
to `n = 27`, built by rounded multiplications above. -/
def pow5 (prec : Nat) (n : Nat) : Float :=
  if n ≤ 27 then roundQuo prec false (5 ^ n) 1 0
  else
    pow5Loop 64 (n - 27) (roundQuo prec false (5 ^ 27) 1 0) (roundQuo (prec + 64) false 5 1 0)

/-- State of the digit loop of `nat.scan`. -/
structure ScanState where
  mant : Nat
  count : Nat
  dp : Option Nat
  fracOk : Bool
  prev : Char
  invalSep : Bool

/-- The digit value `nat.scan` gives a character (63 for a non-digit). -/
def digitVal (ch : Char) : Nat :=
  if '0' ≤ ch ∧ ch ≤ '9' then ch.toNat - 48
  else if 'a' ≤ ch ∧ ch ≤ 'z' then ch.toNat - 97 + 10
  else if 'A' ≤ ch ∧ ch ≤ 'Z' then ch.toNat - 65 + 10
  else 63

/-- The digit loop of `nat.scan` (base argument 0, so `_` separators are
read): returns the state and the unread input. -/
def scanDigits (b : Nat) : GoString → ScanState → ScanState × GoString
  | [], st => (st, [])
  | ch :: rest, st =>
    if ch = '.' ∧ st.fracOk = true then
      scanDigits b rest { st with fracOk := false, invalSep := st.invalSep || st.prev == '_', prev := '.', dp := some st.count }
    else if ch = '_' then
      scanDigits b rest { st with invalSep := st.invalSep || st.prev != '0', prev := '_' }
    else if b ≤ digitVal ch then (st, ch :: rest)
    else scanDigits b rest { st with prev := '0', count := st.count + 1, mant := st.mant * b + digitVal ch }

/-- Result of `nat.scan`: mantissa digits as a number, base, number of
fractional digits, error flag, unread input. -/
structure NatScan where
  mant : Nat
  base : Nat
  frac : Nat
  err : Bool
  rest : GoString

/-- Finish of `nat.scan` after the digit loop. -/
def natScanFinish (b : Nat) (r : ScanState × GoString) : NatScan :=
  { mant := r.1.mant
    base := b
    frac := match r.1.dp with
      | some p => r.1.count - p
      | none => 0
    err := r.1.invalSep || r.1.prev == '_' || r.1.count == 0
    rest := r.2 }

/-- Go `nat.scan(r, 0, true)`: base prefix detection (`0b`, `0o`, `0x`), then
the digit loop. -/
def natScan (s : GoString) : NatScan :=
  match s with
  | '0' :: ch :: rest =>
    if ch = 'b' ∨ ch = 'B' then
      natScanFinish 2 (scanDigits 2 rest ⟨0, 0, none, true, '0', false⟩)
    else if ch = 'o' ∨ ch = 'O' then
      natScanFinish 8 (scanDigits 8 rest ⟨0, 0, none, true, '0', false⟩)
    else if ch = 'x' ∨ ch = 'X' then
      natScanFinish 16 (scanDigits 16 rest ⟨0, 0, none, true, '0', false⟩)
    else
      natScanFinish 10 (scanDigits 10 (ch :: rest) ⟨0, 1, none, true, '0', false⟩)
  | ['0'] => natScanFinish 10 (⟨0, 1, none, true, '0', false⟩, [])
  | _ => natScanFinish 10 (scanDigits 10 s ⟨0, 0, none, true, '.', false⟩)

/-- State of the digit loop of `scanExponent`. -/
structure ExpState where
  value : Nat
  hasDigits : Bool
  prev : Char
  invalSep : Bool

/-- The digit loop of `scanExponent` (separators allowed). -/
def scanExpDigits : GoString → ExpState → ExpState
  | [], st => st
  | ch :: rest, st =>
    if '0' ≤ ch ∧ ch ≤ '9' then
      scanExpDigits rest { st with value := st.value * 10 + (ch.toNat - 48), prev := '0', hasDigits := true }
    else if ch = '_' then
      scanExpDigits rest { st with invalSep := st.invalSep || st.prev != '0', prev := '_' }
    else st

/-- Digits and sign of the exponent, after the exponent character: the
exponent, or `none` on an error (no digits, outside `int64`, misplaced
separator). -/
def scanExpValue (s : GoString) : Option Int :=
  let neg := s.head? == some '-'
  let body := if s.head? == some '+' ∨ s.head? == some '-' then s.tail else s
  let st := scanExpDigits body ⟨0, false, '.', false⟩
  let v : Int := if neg then -(st.value : Int) else (st.value : Int)
  if st.hasDigits = false then none
  else if v < -9223372036854775808 ∨ 9223372036854775807 < v then none
  else if st.invalSep = true ∨ st.prev = '_' then none
  else some v

/-- Go `scanExponent(r, true, true)`: exponent and its base (10 for `e`, 2 for
`p`); no exponent character means exponent 0, base 10. -/
def scanExponent (s : GoString) : Option (Int × Nat) :=
  match s with
  | [] => some (0, 10)
  | ch :: rest =>
    if ch = 'e' ∨ ch = 'E' then (scanExpValue rest).map (fun v => (v, 10))
    else if ch = 'p' ∨ ch = 'P' then (scanExpValue rest).map (fun v => (v, 2))
    else some (0, 10)

/-- The value `(*Float).scan` leaves in a fresh receiver when it stops with an
error: form zero, precision still 0. -/
def scanFailed (neg : Bool) : Float :=
  { prec := 0, neg := neg, form := Form.zero, mant := 0, scale := 0 }

/-- Go `(*Float).scan(r, 0)` on a fresh receiver, after the sign: mantissa,
exponent, then the conversion at precision 64. -/
def scanBody (neg : Bool) (s : GoString) : Float :=
  let m := natScan s
  if m.err = true then scanFailed neg
  else
    match scanExponent m.rest with
    | none => scanFailed neg
    | some (ex, ebase) =>
      if m.mant = 0 then { prec := 64, neg := neg, form := Form.zero, mant := 0, scale := 0 }
      else
        let d : Int := -(m.frac : Int)
        let sc2 : Int :=
          (if m.base = 10 ∨ m.base = 2 then d else if m.base = 8 then d * 3 else d * 4) + ex
        let exp5 : Int := (if m.base = 10 then d else 0) + (if ebase = 10 then ex else 0)
        let exp2 : Int := (bitLen m.mant : Int) + sc2
        if exp2 < MinExp ∨ MaxExp < exp2 then scanFailed neg
        else
          let z : Float := { prec := 64, neg := neg, form := Form.finite, mant := m.mant, scale := sc2 }
          if exp5 = 0 then roundQuo 64 neg m.mant 1 sc2
          else if exp5 < 0 then quoPrec 64 z (pow5 128 (-exp5).toNat)
          else mulPrec 64 z (pow5 128 exp5.toNat)

/-- Go `scanSign` followed by the rest of `(*Float).scan`; the empty input is
a read error. -/
def scan (s : GoString) : Float :=
  match s with
  | [] => scanFailed false
  | '-' :: rest => scanBody true rest
  | '+' :: rest => scanBody false rest
  | _ => scanBody false s

/-- The value of `amount` after `amount := new(big.Float); amount.SetString(s)`.
`SetString` reports failure through its results, which the caller drops; the
receiver keeps what `Parse` wrote: an infinity for the four spellings of
`Inf`, otherwise what `scan` read from the front of `s`. -/
def SetString (s : GoString) : Float :=
  if s = "Inf".toList ∨ s = "inf".toList ∨ s = "+Inf".toList ∨ s = "+inf".toList then
    { Float.new with form := Form.inf, neg := false }
  else if s = "-Inf".toList ∨ s = "-inf".toList then
    { Float.new with form := Form.inf, neg := true }
  else scan s

/-- Go `x.Int(nil)`: the value truncated toward zero; `none` is the nil
`*big.Int` returned for an infinity. -/
def Float.Int (x : Float) : Option ℤ :=
  match x.form with
  | Form.zero => some 0
  | Form.inf => none
  | Form.finite =>
    if x.exp ≤ 0 then some 0
    else
      let a : Nat := x.mant * 2 ^ x.scale.toNat / 2 ^ (-x.scale).toNat
      some (if x.neg then -(a : ℤ) else (a : ℤ))

/-- Go `(*big.Int).Text(16)`; a nil receiver prints as `<nil>`. -/
def IntText16 : Option Int → GoString
  | none => "<nil>".toList
  | some (Int.ofNat n) => natText16 n
  | some (Int.negSucc n) => '-' :: natText16 (n + 1)

/-! ## encoding/hex and the private key -/

deriving instance DecidableEq for Except

/-- Why `crypto.HexToECDSA` rejects a key. -/
inductive KeyFault
  | invalidHexCharacter (c : Char)
  | invalidHexData
  | invalidLength
  | notBelowN
  | zero
  deriving DecidableEq, Repr

/-- Go `hex.DecodeString`: two hexadecimal digits per byte, the first bad
character reported before an odd length. -/
def DecodeString : GoString → Except KeyFault (List Nat)
  | [] => Except.ok []
  | [c] =>
    match fromHexChar c with
    | none => Except.error (KeyFault.invalidHexCharacter c)
    | some _ => Except.error KeyFault.invalidHexData
  | p :: q :: rest =>
    match fromHexChar p, fromHexChar q with
    | none, _ => Except.error (KeyFault.invalidHexCharacter p)
    | some _, none => Except.error (KeyFault.invalidHexCharacter q)
    | some a, some b =>
      match DecodeString rest with
      | Except.error e => Except.error e
      | Except.ok bs => Except.ok ((16 * a + b) :: bs)

/-- The big-endian number of a byte string (`new(big.Int).SetBytes`). -/
def SetBytes (bs : List Nat) : Nat :=
  bs.foldl (fun acc b => 256 * acc + b) 0

/-- Order of the secp256k1 group. -/
def secp256k1N : Nat :=
  0xFFFFFFFFFFFFFFFFFFFFFFFFFFFFFFFEBAAEDCE6AF48A03BBFD25E8CD0364141

/-- The go-ethereum function `crypto.HexToECDSA` (the dependency the program
imports), by its definition: `hex.DecodeString`, then `ToECDSA` in strict
mode, which needs exactly 256 bits and a scalar `0 < d < N`. The accepted key
is its scalar. -/
def HexToECDSA (hexkey : GoString) : Except KeyFault Nat :=
  match DecodeString hexkey with
  | Except.error e => Except.error e
  | Except.ok b =>
    if 8 * b.length ≠ 256 then Except.error KeyFault.invalidLength
    else if secp256k1N ≤ SetBytes b then Except.error KeyFault.notBelowN
    else if SetBytes b = 0 then Except.error KeyFault.zero
    else Except.ok (SetBytes b)

/-! ## Values decoded from JSON, the node, the library parameters -/

/-- A Go `interface{}` holding decoded JSON: `nil`, `bool`, `float64` (kept as
its literal), `string`, `[]interface{}` or `map[string]interface{}` (an
association list, first entry for a key). -/
inductive Value
  | null
  | bool (b : Bool)
  | number (literal : GoString)
  | string (s : GoString)
  | array (items : List Value)
  | object (fields : List (GoString × Value))

/-- A Go `map[string]interface{}`. -/
abbrev GoMap := List (GoString × Value)

/-- Go `m[key]` on a `map[string]interface{}`: `nil` for an absent key. -/
def GoMap.index : GoMap → GoString → Value
  | [], _ => Value.null
  | (k, v) :: rest, key => if k = key then v else GoMap.index rest key

/-- Go `v != nil`. -/
def Value.notNil : Value → Bool
  | Value.null => false
  | _ => true

/-- Go `v.(map[string]interface{})`: `none` stands for the run-time panic of
the failed single-result type assertion. -/
def Value.assertMap : Value → Option GoMap
  | Value.object fields => some fields
  | _ => none

/-- The struct `TronTransaction`. -/
structure TronTransaction where
  TxID : GoString
  RawData : GoMap
  RawDataHex : GoString

/-- The struct `TronBroadcastResponse`. -/
structure TronBroadcastResponse where
  Result : Bool
  TxID : GoString
  Message : GoString

/-- The map `signedTx` built by `signTransaction`. -/
structure SignedTx where
  raw_data : GoMap
  signature : List GoString
  visible : Bool

/-- The request body `payload` of `createTRC20Transaction`. -/
structure TriggerPayload where
  owner_address : GoString
  contract_address : GoString
  function_selector : GoString
  parameter : GoString
  fee_limit : Nat
  call_value : Nat
  visible : Bool
  deriving DecidableEq

/-- What `createTRC20Transaction` gets back from its `http.Post`,
`io.ReadAll` and `json.Unmarshal` into a `map[string]interface{}`: an error
from one of the three, or the decoded map. -/
inductive TriggerReply
  | failed (err : GoString)
  | decoded (result : GoMap)

/-- What `broadcastTransaction` gets back from its `http.Post`, `io.ReadAll`
and `json.Unmarshal` into a `TronBroadcastResponse`: an error from one of the
three, or the decoded struct. -/
inductive BroadcastReply
  | failed (err : GoString)
  | decoded (result : TronBroadcastResponse)

/-- The remote node behind `TronAPIURL`, seen through the two endpoints. -/
structure Node where
  triggersmartcontract : TriggerPayload → TriggerReply
  broadcasttransaction : SignedTx → BroadcastReply

/-- The library functions whose results the program only passes along. -/
structure Lib where
  /-- The 40 hexadecimal digits of `crypto.PubkeyToAddress(pub).Hex()` after
  its `0x`, for the key with scalar `d`. -/
  address : Nat → GoString
  address_length : ∀ d, len (address d) = 40
  /-- The text of the error returned by `crypto.HexToECDSA`. -/
  keyErrorText : KeyFault → GoString
  /-- Go `json.Marshal` of a `raw_data` map. -/
  Marshal : GoMap → List Nat
  /-- Go `sha256.Sum256`. -/
  Sum256 : List Nat → List Nat
  /-- Go-ethereum `crypto.Sign(hash, key)`. -/
  Sign : List Nat → Nat → Except GoString (List Nat)
  /-- The `%v` text of a number, slice or map. -/
  formatComposite : Value → GoString

/-- Go `fmt` verb `%v` on an `interface{}` value. -/
def formatValue (lib : Lib) : Value → GoString
  | Value.null => "<nil>".toList
  | Value.bool true => "true".toList
  | Value.bool false => "false".toList
  | Value.string s => s
  | v => lib.formatComposite v

/-- Go `hex.EncodeToString`. -/
def EncodeToString (bs : List Nat) : GoString :=
  bs.flatMap (fun b => [digitChar (b / 16 % 16), digitChar (b % 16)])

/-! ## main.go -/

/-- A Go call: it returns a value or panics. -/
inductive Outcome (α : Type)
  | returned (a : α)
  | panicked
  deriving DecidableEq

/-- The constant `USDTContractAddress`. -/
def USDTContractAddress : GoString := "TR7NHqjeKQxGTCi8q8ZY4pL8otSzgjLj6t".toList

/-- Function `hexToTronAddress`: drop a leading `0x`, keep the first 40 bytes
behind a `T`. The slice `hexAddr[:40]` panics on fewer than 40 bytes. -/
def hexToTronAddress (hexAddr : GoString) : Outcome GoString :=
  let hexAddr := TrimPrefix hexAddr "0x".toList
  if len hexAddr < 40 then Outcome.panicked
  else Outcome.returned ("T".toList ++ sliceTo 40 hexAddr)

/-- Function `tronAddressToHex`: the string without one leading `T`. -/
def tronAddressToHex (tronAddr : GoString) : GoString :=
  TrimPrefix tronAddr "T".toList

/-- The local `methodID` of `sendTRC20USDT`. -/
def methodID : GoString := "a9059cbb".toList

/-- The local `amount` of `sendTRC20USDT` after `amount.SetString(amountStr)`. -/
def amount (amountStr : GoString) : Float :=
  SetString amountStr

/-- The local `amountInt` of `sendTRC20USDT`: `amount` times 1000000 at the
precision of `amount`, truncated; `none` is the nil `*big.Int`. -/
def amountInt (amountStr : GoString) : Option ℤ :=
  (Float.Mul (amount amountStr) multiplier).Int

/-- The local `toAddrPadded` of `sendTRC20USDT`. -/
def toAddrPadded (toAddress : GoString) : GoString :=
  sprintf064s (tronAddressToHex toAddress)

/-- The local `amountHex` of `sendTRC20USDT`. -/
def amountHex (amountStr : GoString) : GoString :=
  sprintf064s (IntText16 (amountInt amountStr))

/-- The local `parameter` of `sendTRC20USDT`. -/
def parameter (toAddress amountStr : GoString) : GoString :=
  methodID ++ toAddrPadded toAddress ++ amountHex amountStr

/-- The map `payload` of `createTRC20Transaction`. -/
def triggerPayload (ownerAddress contractAddress parameter : GoString) : TriggerPayload :=
  { owner_address := ownerAddress
    contract_address := contractAddress
    function_selector := "transfer(address,uint256)".toList
    parameter := parameter
    fee_limit := 1000000
    call_value := 0
    visible := true }

/-- Function `createTRC20Transaction`: one request to
`/wallet/triggersmartcontract`, then the reading of the decoded map. The
returned pair is `Except.error err` for `(nil, err)` and `Except.ok tx` for
`(tx, nil)`. -/
def createTRC20Transaction (lib : Lib) (node : Node)
    (ownerAddress contractAddress parameter : GoString) :
    Outcome (Except GoString TronTransaction) :=
  match node.triggersmartcontract (triggerPayload ownerAddress contractAddress parameter) with
  | TriggerReply.failed err => Outcome.returned (Except.error err)
  | TriggerReply.decoded result =>
    if (result.index "Error".toList).notNil = true then
      Outcome.returned
        (Except.error ("API error: ".toList ++ formatValue lib (result.index "Error".toList)))
    else
      match (result.index "transaction".toList).assertMap with
      | none => Outcome.panicked
      | some transaction =>
        match (transaction.index "raw_data".toList).assertMap with
        | none => Outcome.panicked
        | some rawData =>
          Outcome.returned
            (Except.ok
              { TxID := [], RawData := rawData, RawDataHex := EncodeToString (lib.Marshal rawData) })

/-- Function `signTransaction`; `Except.error err` for `(nil, err)` and
`Except.ok signedTx` for `(signedTx, nil)`. -/
def signTransaction (lib : Lib) (tx : TronTransaction) (privateKeyHex : GoString) :
    Except GoString SignedTx :=
  let hash := lib.Sum256 (lib.Marshal tx.RawData)
  match HexToECDSA privateKeyHex with
  | Except.error e => Except.error (lib.keyErrorText e)
  | Except.ok privateKey =>
    match lib.Sign hash privateKey with
    | Except.error err => Except.error err
    | Except.ok signature =>
      let signature := if signature.length = 65 then signature.take 64 else signature
      Except.ok { raw_data := tx.RawData, signature := [EncodeToString signature], visible := true }

/-- Function `broadcastTransaction`: one request to
`/wallet/broadcasttransaction`, then the reading of the decoded struct. The
result is the returned pair `(string, error)`, `none` for a nil error. -/
def broadcastTransaction (node : Node) (signedTx : SignedTx) : GoString × Option GoString :=
  match node.broadcasttransaction signedTx with
  | BroadcastReply.failed err => ([], some err)
  | BroadcastReply.decoded result =>
    if result.Result = false then
      ([], some ("broadcast failed: ".toList ++ result.Message))
    else (result.TxID, none)

/-- A call made by `sendTRC20USDT` to one of the three pipeline functions.
`createTRC20Transaction` and `broadcastTransaction` each send one request to
the node when called. -/
inductive Call
  | createTRC20Transaction (ownerAddress contractAddress parameter : GoString)
  | signTransaction (tx : TronTransaction) (privateKeyHex : GoString)
  | broadcastTransaction (signedTx : SignedTx)

/-- Whether the call is to `createTRC20Transaction`. -/
def Call.isCreate : Call → Bool
  | Call.createTRC20Transaction _ _ _ => true
  | _ => false

/-- Whether the call is to `signTransaction`. -/
def Call.isSign : Call → Bool
  | Call.signTransaction _ _ => true
  | _ => false

/-- Whether the call is to `broadcastTransaction`. -/
def Call.isBroadcast : Call → Bool
  | Call.broadcastTransaction _ => true
  | _ => false

/-- One execution of `sendTRC20USDT`: the calls made, in order, and how it
ended (the returned pair `(string, error)` or a panic). -/
structure Run where
  calls : List Call
  outcome : Outcome (GoString × Option GoString)

/-- Function `sendTRC20USDT`. -/
def sendTRC20USDT (lib : Lib) (node : Node) (privateKeyHex toAddress amountStr : GoString) : Run :=
  let privateKeyHex := TrimPrefix privateKeyHex "0x".toList
  match HexToECDSA privateKeyHex with
  | Except.error e =>
    ⟨[], Outcome.returned ([], some ("invalid private key: ".toList ++ lib.keyErrorText e))⟩
  | Except.ok privateKey =>
    match hexToTronAddress ("0x".toList ++ lib.address privateKey) with
    | Outcome.panicked => ⟨[], Outcome.panicked⟩
    | Outcome.returned fromAddressTron =>
      if mulPanics (amount amountStr) multiplier = true then ⟨[], Outcome.panicked⟩
      else
        let parameter := parameter toAddress amountStr
        let c1 := Call.createTRC20Transaction fromAddressTron USDTContractAddress parameter
        match createTRC20Transaction lib node fromAddressTron USDTContractAddress parameter with
        | Outcome.panicked => ⟨[c1], Outcome.panicked⟩
        | Outcome.returned (Except.error err) =>
          ⟨[c1], Outcome.returned ([], some ("failed to create transaction: ".toList ++ err))⟩
        | Outcome.returned (Except.ok tx) =>
          let c2 := Call.signTransaction tx privateKeyHex
          match signTransaction lib tx privateKeyHex with
          | Except.error err =>
            ⟨[c1, c2], Outcome.returned ([], some ("failed to sign transaction: ".toList ++ err))⟩
          | Except.ok signedTx =>
            let c3 := Call.broadcastTransaction signedTx
            match broadcastTransaction node signedTx with
            | (_, some err) =>
              ⟨[c1, c2, c3], Outcome.returned ([], some ("failed to broadcast transaction: ".toList ++ err))⟩
            | (txID, none) => ⟨[c1, c2, c3], Outcome.returned (txID, none)⟩

/-! ## Sample environment -/

/-- A library instance for concrete runs: every key has the address
`aaaa...a`, signatures are 65 zero bytes. -/
def sampleLib : Lib :=
  { address := fun _ => List.replicate 40 'a'
    address_length := fun _ => rfl
    keyErrorText := fun _ => "bad key".toList
    Marshal := fun _ => []
    Sum256 := fun _ => List.replicate 32 0
    Sign := fun _ _ => Except.ok (List.replicate 65 0)
    formatComposite := fun _ => [] }

/-- A node that gives the same two replies to every request. -/
def nodeReplying (t : TriggerReply) (b : BroadcastReply) : Node :=
  { triggersmartcontract := fun _ => t
    broadcasttransaction := fun _ => b }

/-- A construction reply holding a transaction with an empty `raw_data`. -/
def sampleTransactionReply : TriggerReply :=
  TriggerReply.decoded [("transaction".toList, Value.object [("raw_data".toList, Value.object [])])]

/-- A broadcast reply accepting the transaction under the id `beef`. -/
def sampleAccepted : BroadcastReply :=
  BroadcastReply.decoded { Result := true, TxID := "beef".toList, Message := [] }

/-- A node that builds and accepts every transaction. -/
def sampleNode : Node :=
  nodeReplying sampleTransactionReply sampleAccepted

/-- A construction reply reporting an error message. -/
def errorReply : TriggerReply :=
  TriggerReply.decoded [("Error".toList, Value.string "contract validate error".toList)]

/-- A construction reply that is a JSON object with no field at all. -/
def emptyReply : TriggerReply :=
  TriggerReply.decoded []

/-- A construction reply, as nodes send for a failed trigger, with a `result`
object and neither `Error` nor `transaction`. -/
def resultOnlyReply : TriggerReply :=
  TriggerReply.decoded
    [("result".toList, Value.object [("code".toList, Value.string "CONTRACT_VALIDATE_ERROR".toList)])]

/-- A construction reply whose `transaction` has no `raw_data`. -/
def noRawDataReply : TriggerReply :=
  TriggerReply.decoded [("transaction".toList, Value.object [])]

/-- A broadcast reply refusing the transaction for insufficient balance. -/
def sampleRejected : BroadcastReply :=
  BroadcastReply.decoded { Result := false, TxID := [], Message := "insufficient balance".toList }

/-- A signed transaction with an empty `raw_data` and no signature. -/
def sampleSignedTx : SignedTx :=
  { raw_data := [], signature := [], visible := true }

/-- A well-formed private key: the scalar 1 in 64 hexadecimal digits. -/
def sampleKey : GoString :=
  List.replicate 63 '0' ++ ['1']


/-! ## Lemmas on the text functions -/

theorem length_sprintf064s (s : GoString) : (sprintf064s s).length = max 64 s.length := by
  simp only [sprintf064s, List.length_append, List.length_replicate]
  omega

theorem sprintf064s_eq_of_le (s : GoString) :
    sprintf064s s = List.replicate (64 - s.length) '0' ++ s := rfl

theorem itoaAux_acc (fuel n : Nat) (acc : GoString) :
    itoaAux 16 fuel n acc = itoaAux 16 fuel n [] ++ acc := by
  induction fuel generalizing n acc with
  | zero => simp [itoaAux]
  | succ f ih =>
    simp only [itoaAux]
    split
    · simp
    · rw [ih, ih (n / 16) [digitChar (n % 16)]]
      simp

theorem fromHexChar_digitChar (d : Nat) (h : d < 16) : fromHexChar (digitChar d) = some d := by
  interval_cases d <;> decide!

theorem hexValue_snoc (s : GoString) (c : Char) :
    hexValue (s ++ [c]) = hexStep (hexValue s) c := by
  simp [hexValue, List.foldl_append]

theorem hexValue_itoaAux (fuel n : Nat) (h : n < 16 ^ fuel) :
    hexValue (itoaAux 16 fuel n []) = some n := by
  induction fuel generalizing n with
  | zero =>
    have : n = 0 := by simpa using h
    subst this
    rfl
  | succ f ih =>
    simp only [itoaAux]
    split
    · next hlt =>
      simp [hexValue, hexStep, fromHexChar_digitChar n hlt]
    · next hge =>
      rw [itoaAux_acc, hexValue_snoc, ih (n / 16) (by
        apply Nat.div_lt_of_lt_mul
        rw [pow_succ] at h
        omega)]
      simp only [hexStep, Option.bind, fromHexChar_digitChar (n % 16) (Nat.mod_lt _ (by norm_num)),
        Option.map]
      congr 1
      omega

theorem length_itoaAux (k : Nat) : ∀ fuel n : Nat, 0 < k → k ≤ fuel → n < 16 ^ k →
    (itoaAux 16 fuel n []).length ≤ k := by
  induction k with
  | zero => intro _ _ h; omega
  | succ k ih =>
    intro fuel n _ hf hn
    obtain ⟨f, rfl⟩ : ∃ f, fuel = f + 1 := ⟨fuel - 1, by omega⟩
    simp only [itoaAux]
    split
    · simp
    · next hge =>
      rw [itoaAux_acc]
      have hk : 0 < k := by
        rcases Nat.eq_zero_or_pos k with h0 | h0
        · subst h0; simp at hn; omega
        · exact h0
      have := ih f (n / 16) hk (by omega) (by
        apply Nat.div_lt_of_lt_mul
        rw [pow_succ] at hn
        omega)
      simp only [List.length_append, List.length_singleton]
      omega

theorem hexValue_natText16 (n : Nat) : hexValue (natText16 n) = some n := by
  apply hexValue_itoaAux
  calc n < 2 ^ n := Nat.lt_two_pow n
    _ ≤ 16 ^ n := Nat.pow_le_pow_left (by norm_num) n
    _ ≤ 16 ^ (n + 1) := Nat.pow_le_pow_right (by norm_num) (by omega)

theorem length_natText16_le (n : Nat) (h : n < 2 ^ 256) : (natText16 n).length ≤ 64 := by
  rcases Nat.lt_or_ge n 64 with h64 | h64
  · refine length_itoaAux (n + 1) (n + 1) n (by omega) (le_refl _) ?_ |>.trans (by omega)
    calc n < 2 ^ n := Nat.lt_two_pow n
      _ ≤ 16 ^ n := Nat.pow_le_pow_left (by norm_num) n
      _ ≤ 16 ^ (n + 1) := Nat.pow_le_pow_right (by norm_num) (by omega)
  · exact length_itoaAux 64 (n + 1) n (by norm_num) (by omega) (by
      calc n < 2 ^ 256 := h
        _ = 16 ^ 64 := by norm_num)

theorem foldl_hexStep_none (s : GoString) : s.foldl hexStep none = none := by
  induction s with
  | nil => rfl
  | cons c s ih => simpa [List.foldl, hexStep] using ih

theorem hexValue_zeros_append (k : Nat) (s : GoString) :
    hexValue (List.replicate k '0' ++ s) = hexValue s := by
  induction k with
  | zero => simp
  | succ k ih =>
    have h0 : hexStep (some 0) '0' = some 0 := by decide!
    simp only [hexValue, List.replicate_succ, List.cons_append, List.foldl_cons, h0] at ih ⊢
    exact ih

theorem isHex_of_foldl (s : GoString) : ∀ (a v : Nat), s.foldl hexStep (some a) = some v →
    ∀ c ∈ s, (fromHexChar c).isSome = true := by
  induction s with
  | nil => intro _ _ _ c hc; simp at hc
  | cons x s ih =>
    intro a v h c hc
    simp only [List.foldl_cons] at h
    cases hx : fromHexChar x with
    | none =>
      simp [hexStep, hx, foldl_hexStep_none] at h
    | some d =>
      rcases List.mem_cons.mp hc with rfl | hcs
      · simp [hx]
      · simp only [hexStep, hx, Option.bind, Option.map] at h
        exact ih _ v h c hcs

theorem isHex_of_hexValue (s : GoString) (v : Nat) (h : hexValue s = some v) :
    ∀ c ∈ s, (fromHexChar c).isSome = true :=
  isHex_of_foldl s 0 v h

theorem isHex_sprintf064s (s : GoString) (h : ∀ c ∈ s, (fromHexChar c).isSome = true) :
    ∀ c ∈ sprintf064s s, (fromHexChar c).isSome = true := by
  intro c hc
  simp only [sprintf064s, List.mem_append, List.mem_replicate] at hc
  rcases hc with ⟨_, rfl⟩ | hc
  · decide!
  · exact h c hc

theorem IntText16_natCast (v : Nat) : IntText16 (some (v : ℤ)) = natText16 v := rfl

theorem amountHex_of_amountInt (amountStr : GoString) (v : Nat)
    (hv : amountInt amountStr = some (v : ℤ)) :
    amountHex amountStr = sprintf064s (natText16 v) := by
  simp only [amountHex, hv, IntText16_natCast]

theorem length_parameter (toAddress amountStr : GoString) :
    (parameter toAddress amountStr).length =
      8 + max 64 (tronAddressToHex toAddress).length
        + max 64 (IntText16 (amountInt amountStr)).length := by
  simp only [parameter, toAddrPadded, amountHex, List.length_append, length_sprintf064s]
  rfl

theorem take_parameter (toAddress amountStr : GoString) :
    (parameter toAddress amountStr).take 8 = "a9059cbb".toList := by
  simp only [parameter, List.append_assoc]
  rfl

/-! ## The call data (claims C1, C2, C4) -/

/-- C1, as stated, fails: the width 64 of `%064s` is a minimum. A recipient of
`T` and 65 further characters, or the amount `1e72` (above `2 ^ 256` in
smallest units), gives a `parameter` of 137 characters, not 136. -/
theorem parameter_longer_than_136 :
    (parameter ('T' :: List.replicate 65 'a') "1".toList).length = 137 ∧
    (parameter ('T' :: List.replicate 65 'a') "1".toList).length ≠ 136 ∧
    (parameter USDTContractAddress "1e72".toList).length = 137 ∧
    (parameter USDTContractAddress "1e72".toList).length ≠ 136 := by
  decide!

/-- C1, amended: when the recipient string without one leading `T` has at most
64 characters and `amountInt` is a number `v` with `0 ≤ v < 2 ^ 256`,
`parameter` is exactly 136 characters and starts with the selector `a9059cbb`;
all 136 are hexadecimal digits when the rest of the recipient string is made
of hexadecimal digits. -/
theorem parameter_136_with_selector (toAddress amountStr : GoString) (v : Nat)
    (haddr : (tronAddressToHex toAddress).length ≤ 64)
    (hv : amountInt amountStr = some (v : ℤ)) (hlt : v < 2 ^ 256) :
    (parameter toAddress amountStr).length = 136 ∧
    (parameter toAddress amountStr).take 8 = "a9059cbb".toList ∧
    ((∀ c ∈ tronAddressToHex toAddress, (fromHexChar c).isSome = true) →
      ∀ c ∈ parameter toAddress amountStr, (fromHexChar c).isSome = true) := by
  refine ⟨?_, take_parameter toAddress amountStr, ?_⟩
  · rw [length_parameter, hv, IntText16_natCast]
    have := length_natText16_le v hlt
    omega
  · intro hhex c hc
    simp only [parameter, List.mem_append] at hc
    rcases hc with (hc | hc) | hc
    · exact isHex_of_hexValue methodID 2835717307 (by decide!) c hc
    · exact isHex_sprintf064s _ hhex c hc
    · rw [amountHex_of_amountInt amountStr v hv] at hc
      exact isHex_sprintf064s _ (isHex_of_hexValue _ v (hexValue_natText16 v)) c hc

/-- C1, amended, at the recipient `USDTContractAddress` and the amount `10.5`. -/
theorem parameter_136_with_selector_witness :
    (parameter USDTContractAddress "10.5".toList).length = 136 ∧
    (parameter USDTContractAddress "10.5".toList).take 8 = "a9059cbb".toList :=
  ⟨(parameter_136_with_selector USDTContractAddress "10.5".toList 10500000
      (by decide!) (by decide!) (by norm_num)).1,
   (parameter_136_with_selector USDTContractAddress "10.5".toList 10500000
      (by decide!) (by decide!) (by norm_num)).2.1⟩

/-- C2 on the code: the amount `0.001` denotes 1000 smallest units, and the
code computes 999. The nearest 64-bit binary value of 0.001 lies below 0.001,
its product with 1000000 rounds to the 64-bit value just below 1000, and `Int`
truncates. The amount `1.000001` of the claim does give 1000001. -/
theorem amountInt_one_thousandth :
    amountInt "0.001".toList = some 999 ∧
    amountInt "1.000001".toList = some 1000001 := by
  decide!

/-- The padding of `amountHex` taken alone: when `amountInt` is a number `v`
with `0 ≤ v < 2 ^ 256`, `amountHex` is exactly 64 hexadecimal digits, the
base 16 text of `v` behind as many `0` as it takes, and reads back as `v`. -/
theorem amountHex_of_value (amountStr : GoString) (v : Nat)
    (hv : amountInt amountStr = some (v : ℤ)) (hlt : v < 2 ^ 256) :
    (amountHex amountStr).length = 64 ∧
    amountHex amountStr = List.replicate (64 - (natText16 v).length) '0' ++ natText16 v ∧
    hexValue (amountHex amountStr) = some v ∧
    (∀ c ∈ amountHex amountStr, (fromHexChar c).isSome = true) := by
  have hlen := length_natText16_le v hlt
  have hval : hexValue (amountHex amountStr) = some v := by
    rw [amountHex_of_amountInt amountStr v hv, sprintf064s_eq_of_le, hexValue_zeros_append]
    exact hexValue_natText16 v
  refine ⟨?_, ?_, hval, isHex_of_hexValue _ v hval⟩
  · rw [amountHex_of_amountInt amountStr v hv, length_sprintf064s]
    omega
  · rw [amountHex_of_amountInt amountStr v hv, sprintf064s_eq_of_le]

/-- C4 on the code: the amount `0.001` is 1000 smallest units, well below
`2 ^ 256`, and the word the claim asks for is the base 16 text `3e8` of 1000
behind 61 zeros. The code builds the word of 999, `3e7` behind 61 zeros,
because `amountInt` is 999 there. The amount `10.5` of the claim does give
`amountInt = 10500000` and the word `00...0a037a0`, and whatever `amountInt`
is, the padding is right: 64 hexadecimal digits that read back as
`amountInt`. -/
theorem amountHex_one_thousandth :
    amountInt "0.001".toList = some 999 ∧
    amountHex "0.001".toList = List.replicate 61 '0' ++ "3e7".toList ∧
    sprintf064s (natText16 1000) = List.replicate 61 '0' ++ "3e8".toList ∧
    amountHex "0.001".toList ≠ sprintf064s (natText16 1000) ∧
    hexValue (amountHex "0.001".toList) = some 999 ∧
    amountInt "10.5".toList = some 10500000 ∧
    amountHex "10.5".toList =
      "0000000000000000000000000000000000000000000000000000000000a037a0".toList ∧
    hexValue (amountHex "10.5".toList) = some 10500000 ∧
    (∀ (amountStr : GoString) (v : Nat), amountInt amountStr = some (v : ℤ) → v < 2 ^ 256 →
      (amountHex amountStr).length = 64 ∧ hexValue (amountHex amountStr) = some v) :=
  ⟨by decide!, by decide!, by decide!, by decide!, by decide!, by decide!, by decide!,
    by decide!, fun amountStr v hv hlt =>
      ⟨(amountHex_of_value amountStr v hv hlt).1, (amountHex_of_value amountStr v hv hlt).2.2.1⟩⟩

/-! ## Lemmas on the pipeline -/

theorem length_DecodeString : ∀ (n : Nat) (s : GoString) (b : List Nat), s.length ≤ n →
    DecodeString s = Except.ok b → 2 * b.length = s.length := by
  intro n
  induction n with
  | zero =>
    intro s b hs h
    have : s = [] := List.length_eq_zero.mp (by omega)
    subst this
    simp [DecodeString] at h
    subst h
    rfl
  | succ n ih =>
    intro s b hs h
    match s, h with
    | [], h =>
      simp [DecodeString] at h
      subst h
      rfl
    | [c], h =>
      simp only [DecodeString] at h
      split at h <;> simp at h
    | p :: q :: rest, h =>
      simp only [DecodeString] at h
      split at h
      · simp at h
      · simp at h
      · next a b' _ _ =>
        split at h
        · simp at h
        · next bs hbs =>
          simp only [Except.ok.injEq] at h
          subst h
          have := ih rest bs (by simp at hs; omega) hbs
          simp only [List.length_cons]
          omega

theorem HexToECDSA_short (s : GoString) (h : s.length < 64) :
    ∃ f, HexToECDSA s = Except.error f := by
  unfold HexToECDSA
  cases hd : DecodeString s with
  | error e => exact ⟨e, rfl⟩
  | ok b =>
    have := length_DecodeString s.length s b (le_refl _) hd
    refine ⟨KeyFault.invalidLength, ?_⟩
    simp only
    rw [if_pos (by omega)]

theorem sliceTo_of_len_le : ∀ (s : GoString) (n : Nat), len s ≤ n → sliceTo n s = s := by
  intro s
  induction s with
  | nil => intro n _; rfl
  | cons c s ih =>
    intro n h
    simp only [len] at h
    simp only [sliceTo]
    rw [if_pos (by omega), ih (n - c.utf8Size) (by omega)]

theorem len_drop_le : ∀ (k : Nat) (s : GoString), len (s.drop k) ≤ len s := by
  intro k
  induction k with
  | zero => intro s; exact le_refl _
  | succ k ih =>
    intro s
    cases s with
    | nil => exact le_refl _
    | cons c s =>
      have := ih s
      simp only [List.drop_succ_cons, len]
      omega

theorem len_TrimPrefix_le (s p : GoString) : len (TrimPrefix s p) ≤ len s := by
  unfold TrimPrefix
  split
  · exact len_drop_le _ _
  · exact le_refl _

theorem hexToTronAddress_address (lib : Lib) (d : Nat) :
    hexToTronAddress ("0x".toList ++ lib.address d) =
      Outcome.returned ("T".toList ++ lib.address d) := by
  have h0 : "0x".toList = ['0', 'x'] := rfl
  have hl := lib.address_length d
  simp only [hexToTronAddress, TrimPrefix, h0, List.cons_append, List.nil_append,
    List.isPrefixOf, beq_self_eq_true, Bool.and_self, if_true, List.length_cons,
    List.length_nil, List.drop_succ_cons, List.drop_zero, hl]
  rw [if_neg (by omega), sliceTo_of_len_le _ _ (by omega)]

theorem hexToTronAddress_of_short (s : GoString) (h : len s < 40) :
    hexToTronAddress s = Outcome.panicked := by
  have := len_TrimPrefix_le s "0x".toList
  simp only [hexToTronAddress]
  rw [if_pos (by omega)]

theorem mulPanics_multiplier (x : Float) : mulPanics x multiplier = false := by
  cases hx : x.form <;> simp [mulPanics, multiplier, hx]

theorem send_of_bad_key (lib : Lib) (node : Node) (privateKeyHex toAddress amountStr : GoString)
    (f : KeyFault) (hk : HexToECDSA (TrimPrefix privateKeyHex "0x".toList) = Except.error f) :
    sendTRC20USDT lib node privateKeyHex toAddress amountStr =
      ⟨[], Outcome.returned ([], some ("invalid private key: ".toList ++ lib.keyErrorText f))⟩ := by
  simp only [sendTRC20USDT, hk]

theorem send_of_key (lib : Lib) (node : Node) (privateKeyHex toAddress amountStr : GoString)
    (d : Nat) (hk : HexToECDSA (TrimPrefix privateKeyHex "0x".toList) = Except.ok d) :
    sendTRC20USDT lib node privateKeyHex toAddress amountStr =
      match createTRC20Transaction lib node ("T".toList ++ lib.address d) USDTContractAddress
          (parameter toAddress amountStr) with
      | Outcome.panicked =>
        ⟨[Call.createTRC20Transaction ("T".toList ++ lib.address d) USDTContractAddress
            (parameter toAddress amountStr)], Outcome.panicked⟩
      | Outcome.returned (Except.error err) =>
        ⟨[Call.createTRC20Transaction ("T".toList ++ lib.address d) USDTContractAddress
            (parameter toAddress amountStr)],
          Outcome.returned ([], some ("failed to create transaction: ".toList ++ err))⟩
      | Outcome.returned (Except.ok tx) =>
        match signTransaction lib tx (TrimPrefix privateKeyHex "0x".toList) with
        | Except.error err =>
          ⟨[Call.createTRC20Transaction ("T".toList ++ lib.address d) USDTContractAddress
              (parameter toAddress amountStr),
            Call.signTransaction tx (TrimPrefix privateKeyHex "0x".toList)],
            Outcome.returned ([], some ("failed to sign transaction: ".toList ++ err))⟩
        | Except.ok signedTx =>
          match broadcastTransaction node signedTx with
          | (_, some err) =>
            ⟨[Call.createTRC20Transaction ("T".toList ++ lib.address d) USDTContractAddress
                (parameter toAddress amountStr),
              Call.signTransaction tx (TrimPrefix privateKeyHex "0x".toList),
              Call.broadcastTransaction signedTx],
              Outcome.returned ([], some ("failed to broadcast transaction: ".toList ++ err))⟩
          | (txID, none) =>
            ⟨[Call.createTRC20Transaction ("T".toList ++ lib.address d) USDTContractAddress
                (parameter toAddress amountStr),
              Call.signTransaction tx (TrimPrefix privateKeyHex "0x".toList),
              Call.broadcastTransaction signedTx],
              Outcome.returned (txID, none)⟩ := by
  simp only [sendTRC20USDT, hk, hexToTronAddress_address, mulPanics_multiplier]
  rfl

theorem head_calls_of_key (lib : Lib) (node : Node) (privateKeyHex toAddress amountStr : GoString)
    (d : Nat) (hk : HexToECDSA (TrimPrefix privateKeyHex "0x".toList) = Except.ok d) :
    (sendTRC20USDT lib node privateKeyHex toAddress amountStr).calls.head? =
      some (Call.createTRC20Transaction ("T".toList ++ lib.address d) USDTContractAddress
        (parameter toAddress amountStr)) := by
  rw [send_of_key lib node privateKeyHex toAddress amountStr d hk]
  split
  · rfl
  · rfl
  · split
    · rfl
    · split <;> rfl

/-! ## The pipeline (claims C3, C5 to C10) -/

/-- C3 on the code: with a well-formed key the amounts `abc`, `-1` and `Inf`
raise no error. Each run calls `createTRC20Transaction`, signs, broadcasts
and returns the transaction id; the amount words sent are 64 zeros (`abc`
read as 0), `-f4240` behind zeros, and `<nil>` behind zeros (the text of the
nil `*big.Int` that `Int` returns for an infinity). -/
theorem bad_amounts_reach_the_node :
    (sendTRC20USDT sampleLib sampleNode sampleKey USDTContractAddress "abc".toList).outcome
      = Outcome.returned ("beef".toList, none) ∧
    (sendTRC20USDT sampleLib sampleNode sampleKey USDTContractAddress "abc".toList).calls.map
      Call.isCreate = [true, false, false] ∧
    (sendTRC20USDT sampleLib sampleNode sampleKey USDTContractAddress "-1".toList).outcome
      = Outcome.returned ("beef".toList, none) ∧
    (sendTRC20USDT sampleLib sampleNode sampleKey USDTContractAddress "-1".toList).calls.map
      Call.isCreate = [true, false, false] ∧
    (sendTRC20USDT sampleLib sampleNode sampleKey USDTContractAddress "Inf".toList).outcome
      = Outcome.returned ("beef".toList, none) ∧
    (sendTRC20USDT sampleLib sampleNode sampleKey USDTContractAddress "Inf".toList).calls.map
      Call.isCreate = [true, false, false] ∧
    amountHex "abc".toList = List.replicate 64 '0' ∧
    amountHex "-1".toList = List.replicate 58 '0' ++ "-f4240".toList ∧
    amountHex "Inf".toList = List.replicate 59 '0' ++ "<nil>".toList := by
  decide!

/-- C5 on the code: `tronAddressToHex` has no error result, and
`sendTRC20USDT` encodes whatever it returns: with a key that parses, its
first call is `createTRC20Transaction` with the recipient word
`sprintf064s (TrimPrefix toAddress "T")`, for every recipient string. The
empty recipient becomes the word of 64 zeros, the recipient `abc` (no leading
`T`, no checksum) the word `00...0abc`, and both transfers run to the end
without an error. -/
theorem malformed_recipient_is_encoded :
    (∀ (lib : Lib) (node : Node) (privateKeyHex toAddress amountStr : GoString) (d : Nat),
      HexToECDSA (TrimPrefix privateKeyHex "0x".toList) = Except.ok d →
      (sendTRC20USDT lib node privateKeyHex toAddress amountStr).calls.head? =
        some (Call.createTRC20Transaction ("T".toList ++ lib.address d) USDTContractAddress
          (methodID ++ sprintf064s (TrimPrefix toAddress "T".toList) ++ amountHex amountStr))) ∧
    tronAddressToHex [] = [] ∧
    toAddrPadded [] = List.replicate 64 '0' ∧
    tronAddressToHex "abc".toList = "abc".toList ∧
    toAddrPadded "abc".toList = List.replicate 61 '0' ++ "abc".toList ∧
    (sendTRC20USDT sampleLib sampleNode sampleKey [] "1".toList).outcome
      = Outcome.returned ("beef".toList, none) ∧
    (sendTRC20USDT sampleLib sampleNode sampleKey "abc".toList "1".toList).outcome
      = Outcome.returned ("beef".toList, none) :=
  ⟨fun lib node privateKeyHex toAddress amountStr d hk =>
      head_calls_of_key lib node privateKeyHex toAddress amountStr d hk,
    by decide!, by decide!, by decide!, by decide!, by decide!, by decide!⟩

/-- C6 on the code: decoding `USDTContractAddress` leaves 33 characters, and
encoding them panics at the slice `hexAddr[:40]`; no address comes back. The
same holds for every address `A` with `len(A) = 34`, which a display-form
address of 34 base58 characters is. -/
theorem round_trip_panics :
    (tronAddressToHex USDTContractAddress).length = 33 ∧
    hexToTronAddress (tronAddressToHex USDTContractAddress) = Outcome.panicked ∧
    (∀ A : GoString, len A = 34 →
      hexToTronAddress (tronAddressToHex A) = Outcome.panicked) :=
  ⟨by decide!, by decide!, fun A hA =>
    hexToTronAddress_of_short _ (by
      have := len_TrimPrefix_le A "T".toList
      simp only [tronAddressToHex]
      omega)⟩

/-- C7: for every construction response that reports an error in its `Error`
field (the code's test `result["Error"] != nil`), `createTRC20Transaction`
returns the error `API error: ` followed by the `%v` text of that field (the
node's message itself when it is a string), and `sendTRC20USDT`, once past the
private key, returns `failed to create transaction: API error: ...` with an
empty transaction id after the single call to `createTRC20Transaction`:
`signTransaction` and `broadcastTransaction` are not called. -/
theorem error_field_stops_before_signing (lib : Lib) (node : Node)
    (privateKeyHex toAddress amountStr : GoString) (d : Nat) (result : GoMap)
    (hk : HexToECDSA (TrimPrefix privateKeyHex "0x".toList) = Except.ok d)
    (hr : node.triggersmartcontract
      (triggerPayload ("T".toList ++ lib.address d) USDTContractAddress
        (parameter toAddress amountStr)) = TriggerReply.decoded result)
    (he : (result.index "Error".toList).notNil = true) :
    createTRC20Transaction lib node ("T".toList ++ lib.address d) USDTContractAddress
        (parameter toAddress amountStr) =
      Outcome.returned
        (Except.error ("API error: ".toList ++ formatValue lib (result.index "Error".toList))) ∧
    sendTRC20USDT lib node privateKeyHex toAddress amountStr =
      ⟨[Call.createTRC20Transaction ("T".toList ++ lib.address d) USDTContractAddress
          (parameter toAddress amountStr)],
        Outcome.returned ([], some ("failed to create transaction: ".toList ++
          ("API error: ".toList ++ formatValue lib (result.index "Error".toList))))⟩ ∧
    (∀ message, result.index "Error".toList = Value.string message →
      formatValue lib (result.index "Error".toList) = message) := by
  have hc : createTRC20Transaction lib node ("T".toList ++ lib.address d) USDTContractAddress
        (parameter toAddress amountStr) =
      Outcome.returned
        (Except.error ("API error: ".toList ++ formatValue lib (result.index "Error".toList))) := by
    simp only [createTRC20Transaction, hr, he, if_true]
  refine ⟨hc, ?_, ?_⟩
  · rw [send_of_key lib node privateKeyHex toAddress amountStr d hk, hc]
  · intro message hm
    rw [hm]
    rfl

/-- C7 at a response whose `Error` is the string `contract validate error`. -/
theorem error_field_stops_before_signing_witness :
    (sendTRC20USDT sampleLib (nodeReplying errorReply sampleAccepted) sampleKey
        USDTContractAddress "1".toList).outcome =
      Outcome.returned ([], some
        "failed to create transaction: API error: contract validate error".toList) ∧
    (sendTRC20USDT sampleLib (nodeReplying errorReply sampleAccepted) sampleKey
        USDTContractAddress "1".toList).calls.length = 1 :=
  ⟨congrArg Run.outcome
      (error_field_stops_before_signing sampleLib (nodeReplying errorReply sampleAccepted)
        sampleKey USDTContractAddress "1".toList 1
        [("Error".toList, Value.string "contract validate error".toList)]
        (by decide!) rfl rfl).2.1,
    congrArg (fun r => r.calls.length)
      (error_field_stops_before_signing sampleLib (nodeReplying errorReply sampleAccepted)
        sampleKey USDTContractAddress "1".toList 1
        [("Error".toList, Value.string "contract validate error".toList)]
        (by decide!) rfl rfl).2.1⟩

/-- C8: for every decoded broadcast response, `broadcastTransaction` returns
the response's `txid` with no error when `result` is true, and the empty
string with the error `broadcast failed: ` followed by the node's message
when `result` is false; so it succeeds exactly when `result` is true.
`sendTRC20USDT` passes the id on, or returns the empty string with the error
under `failed to broadcast transaction: `. -/
theorem broadcast_follows_result (node : Node) (signedTx : SignedTx)
    (r : TronBroadcastResponse)
    (hb : node.broadcasttransaction signedTx = BroadcastReply.decoded r) :
    (r.Result = true → broadcastTransaction node signedTx = (r.TxID, none)) ∧
    (r.Result = false → broadcastTransaction node signedTx =
      ([], some ("broadcast failed: ".toList ++ r.Message))) ∧
    ((broadcastTransaction node signedTx).2 = none ↔ r.Result = true) ∧
    (∀ (lib : Lib) (privateKeyHex toAddress amountStr : GoString) (d : Nat) (tx : TronTransaction),
      HexToECDSA (TrimPrefix privateKeyHex "0x".toList) = Except.ok d →
      createTRC20Transaction lib node ("T".toList ++ lib.address d) USDTContractAddress
        (parameter toAddress amountStr) = Outcome.returned (Except.ok tx) →
      signTransaction lib tx (TrimPrefix privateKeyHex "0x".toList) = Except.ok signedTx →
      (sendTRC20USDT lib node privateKeyHex toAddress amountStr).outcome =
        Outcome.returned
          (if r.Result = true then (r.TxID, none)
           else ([], some ("failed to broadcast transaction: ".toList ++
             ("broadcast failed: ".toList ++ r.Message))))) := by
  have h : broadcastTransaction node signedTx =
      if r.Result = false then ([], some ("broadcast failed: ".toList ++ r.Message))
      else (r.TxID, none) := by
    simp only [broadcastTransaction, hb]
  refine ⟨?_, ?_, ?_, ?_⟩
  · intro ht
    rw [h, ht]
    rfl
  · intro hf
    rw [h, hf]
    rfl
  · rw [h]
    cases r.Result <;> simp
  · intro lib privateKeyHex toAddress amountStr d tx hk hc hs
    rw [send_of_key lib node privateKeyHex toAddress amountStr d hk, hc]
    simp only [hs, h]
    cases r.Result <;> rfl

/-- C8 at the response with `result` false and the message
`insufficient balance`. -/
theorem broadcast_follows_result_witness :
    broadcastTransaction (nodeReplying sampleTransactionReply sampleRejected) sampleSignedTx =
      ([], some "broadcast failed: insufficient balance".toList) :=
  (broadcast_follows_result (nodeReplying sampleTransactionReply sampleRejected) sampleSignedTx
    { Result := false, TxID := [], Message := "insufficient balance".toList } rfl).2.1 rfl

/-- C9: a private key with fewer than 64 characters after the optional `0x`
is refused by `crypto.HexToECDSA`; `sendTRC20USDT` then returns the empty
transaction id with the error `invalid private key: ...`, having called none
of `createTRC20Transaction`, `signTransaction`, `broadcastTransaction`, and
`signTransaction` on such a key returns an error and no signed transaction. -/
theorem short_key_is_refused (lib : Lib) (node : Node)
    (privateKeyHex toAddress amountStr : GoString)
    (h : (TrimPrefix privateKeyHex "0x".toList).length < 64) :
    (∃ f, sendTRC20USDT lib node privateKeyHex toAddress amountStr =
      ⟨[], Outcome.returned
        ([], some ("invalid private key: ".toList ++ lib.keyErrorText f))⟩) ∧
    (∀ tx, ∃ f, signTransaction lib tx (TrimPrefix privateKeyHex "0x".toList) =
      Except.error (lib.keyErrorText f)) := by
  obtain ⟨f, hf⟩ := HexToECDSA_short _ h
  refine ⟨⟨f, send_of_bad_key lib node privateKeyHex toAddress amountStr f hf⟩, fun tx => ⟨f, ?_⟩⟩
  simp only [signTransaction, hf]

/-- C9 at the key `0x1234`. -/
theorem short_key_is_refused_witness :
    ∃ f, sendTRC20USDT sampleLib sampleNode "0x1234".toList USDTContractAddress "1".toList =
      ⟨[], Outcome.returned
        ([], some ("invalid private key: ".toList ++ sampleLib.keyErrorText f))⟩ :=
  (short_key_is_refused sampleLib sampleNode "0x1234".toList USDTContractAddress "1".toList
    (by decide!)).1

/-- C10 on the code: a construction response that is a JSON object without
`Error` and without an object under `transaction`, or whose `transaction` has
no object under `raw_data`, makes `createTRC20Transaction` panic at its type
assertion, and `sendTRC20USDT` with it; no error value is returned. -/
theorem missing_transaction_panics (lib : Lib) (b : BroadcastReply)
    (ownerAddress contractAddress parameter : GoString) :
    createTRC20Transaction lib (nodeReplying emptyReply b)
      ownerAddress contractAddress parameter = Outcome.panicked ∧
    createTRC20Transaction lib (nodeReplying resultOnlyReply b)
      ownerAddress contractAddress parameter = Outcome.panicked ∧
    createTRC20Transaction lib (nodeReplying noRawDataReply b)
      ownerAddress contractAddress parameter = Outcome.panicked ∧
    (sendTRC20USDT sampleLib (nodeReplying emptyReply sampleAccepted) sampleKey
      USDTContractAddress "1".toList).outcome = Outcome.panicked :=
  ⟨rfl, rfl, rfl, by decide!⟩

end Trc20
